import Mathlib

/-!
Verification development for the gibliapp backend credit-ledger and
request-lifecycle subsystem (`src/controllers/modelController.ts`,
`prisma/schema.prisma`).

Modelling conventions (shallow embedding):
* The Prisma/PostgreSQL store is a `DB` record holding the rows of each
  table as a Lean list in insertion (append) order.
* `uuid()` primary keys are abstracted as a `Nat` counter `nextId` that
  yields fresh identifiers; `now()` timestamps are abstracted as a `Nat`
  clock `now` that every mutating handler advances, so timestamps of
  successive writes are strictly increasing (ties in `transactionTime`
  can still be discussed by building a `DB` value directly).
* The `Decimal(10,4)` column `costPerRequest` and all JavaScript number
  arithmetic on credits are modelled over `ℚ`; the `Int` columns
  `amount`, `balanceAfter`, `creditsCharged` receive whatever number the
  controller computes, so they are `ℚ` here as well.
* Express/auth plumbing is outside the model: handlers take the resolved
  `userId` directly (the 401 branch is upstream) and the zod-validated
  request body is a `SubmitData` record; the zod schema itself is
  modelled by `generationRequestSchemaValid`.
* `Json` columns (`apiSpecificParameters`) are abstracted as
  `Option String`.
-/

/-- `enum RequestStatus` from `prisma/schema.prisma`. -/
inductive RequestStatus where
  | pending
  | processing
  | completed
  | failed
deriving DecidableEq, Repr

/-- `enum CreditTransactionType` from `prisma/schema.prisma`. -/
inductive CreditTransactionType where
  | purchase
  | consumption
  | refund
  | bonus
deriving DecidableEq, Repr

/-- Row of `ai_models` (`model AiModel`), restricted to the columns the
controller reads: `id`, `isActive`, `costPerRequest` (nullable decimal). -/
structure AiModel where
  id : Nat
  isActive : Bool
  costPerRequest : Option ℚ
deriving DecidableEq, Repr

/-- Row of `generation_requests` (`model GenerationRequest`). -/
structure GenerationRequest where
  id : Nat
  userId : String
  modelId : Nat
  prompt : String
  negativePrompt : Option String
  aspectRatio : Option String
  stylePreset : Option String
  seed : Option Int
  numOutputs : Nat
  quality : Option String
  status : RequestStatus
  apiSpecificParameters : Option String
  errorMessage : Option String
  creditsCharged : ℚ
  requestedAt : Nat
  processingStartedAt : Option Nat
  completedAt : Option Nat
deriving DecidableEq, Repr

/-- Row of `user_credits` (`model UserCredit`): one immutable ledger entry. -/
structure UserCredit where
  id : Nat
  userId : String
  requestId : Option Nat
  transactionType : CreditTransactionType
  amount : ℚ
  balanceAfter : ℚ
  notes : Option String
  transactionTime : Nat
deriving DecidableEq, Repr

/-- The durable store: the table rows in insertion order plus the
abstracted id generator and clock (see the module docstring). -/
structure DB where
  models : List AiModel
  requests : List GenerationRequest
  credits : List UserCredit
  nextId : Nat
  now : Nat
deriving DecidableEq, Repr

/-- The zod-validated body of `POST /generate` (`GenerationRequestSchema`),
after parsing: `num_outputs` already has its default applied. -/
structure SubmitData where
  model_id : Nat
  prompt : String
  negative_prompt : Option String
  aspect_ratio : Option String
  num_outputs : Nat
  style_preset : Option String
  seed : Option Int
  quality : Option String
  api_specific_parameters : Option String
deriving DecidableEq, Repr

/-- `GenerationRequestSchema` checks: `prompt` length in [1,1000],
`num_outputs` an integer in [1,4]. -/
def generationRequestSchemaValid (d : SubmitData) : Bool :=
  1 ≤ d.prompt.length && d.prompt.length ≤ 1000 &&
    1 ≤ d.num_outputs && d.num_outputs ≤ 4

/-- `prisma.aiModel.findFirst({where: {id: model_id, isActive: true}})`:
first row of `ai_models` matching the filter, in row order. -/
def findActiveModel (db : DB) (modelId : Nat) : Option AiModel :=
  (db.models.filter (fun m => m.id == modelId && m.isActive)).head?

/-- The ledger entries of one user, in insertion order
(`where: { userId }`). -/
def userEntries (db : DB) (uid : String) : List UserCredit :=
  db.credits.filter (fun e => e.userId == uid)

/-- One step of the `orderBy: { transactionTime: 'desc' }, take: 1` query:
keep the entry with the strictly greater `transactionTime`. On a tie the
accumulator (the earlier row) is kept — the source query specifies no
tie-break, so the result for tied timestamps is whatever the store's row
order yields; the sort is modelled as stable over insertion order. -/
def pickLater (acc : Option UserCredit) (e : UserCredit) : Option UserCredit :=
  match acc with
  | none => some e
  | some a => if a.transactionTime < e.transactionTime then some e else some a

/-- `prisma.userCredit.findMany({where: {userId}, orderBy:
{transactionTime: 'desc'}, take: 1})`, reduced to its single result. -/
def latestCredit (db : DB) (uid : String) : Option UserCredit :=
  (userEntries db uid).foldl pickLater none

/-- `userCredits.length > 0 ? userCredits[0].balanceAfter : 0` — the
balance resolver (spec §4.1). -/
def currentBalance (db : DB) (uid : String) : ℚ :=
  match latestCredit db uid with
  | some e => e.balanceAfter
  | none => 0

/-- `data.num_outputs * (model.costPerRequest?.toNumber() || 1)`: the
JavaScript `||` falls back to `1` when `costPerRequest` is `null`
(optional chaining gives `undefined`) or its numeric value is `0`. -/
def requiredCreditsOf (numOutputs : Nat) (cost : Option ℚ) : ℚ :=
  (numOutputs : ℚ) *
    (match cost with
     | some c => if c = 0 then 1 else c
     | none => 1)

/-- Outcome of `createGenerationRequest` (HTTP status in parentheses). -/
inductive SubmitResult where
  /-- 400 `Invalid request parameters` (zod failure). -/
  | invalidParams
  /-- 400 `Invalid or inactive model selected`. -/
  | invalidModel
  /-- 402 `Insufficient credits` with payload `{required, available}`. -/
  | insufficientCredits (required available : ℚ)
  /-- 202 `Generation request accepted` with `request_id`. -/
  | accepted (request_id : Nat)
deriving DecidableEq, Repr

/-- The `generation_requests` row written by
`prisma.generationRequest.create` in `createGenerationRequest`. -/
def newRequestRow (db : DB) (uid : String) (d : SubmitData) (required : ℚ) :
    GenerationRequest :=
  { id := db.nextId
    userId := uid
    modelId := d.model_id
    prompt := d.prompt
    negativePrompt := d.negative_prompt
    aspectRatio := d.aspect_ratio
    stylePreset := d.style_preset
    seed := d.seed
    numOutputs := d.num_outputs
    quality := d.quality
    status := RequestStatus.pending
    apiSpecificParameters := d.api_specific_parameters
    errorMessage := none
    creditsCharged := required
    requestedAt := db.now
    processingStartedAt := none
    completedAt := none }

/-- The `user_credits` row written by `prisma.userCredit.create` in
`createGenerationRequest`. -/
def newDebitRow (db : DB) (uid : String) (required balance : ℚ) (reqId : Nat) :
    UserCredit :=
  { id := db.nextId + 1
    userId := uid
    requestId := some reqId
    transactionType := CreditTransactionType.consumption
    amount := -required
    balanceAfter := balance - required
    notes := some ("Credit deduction for generation request " ++ toString reqId)
    transactionTime := db.now }

/-- `createGenerationRequest` (the `POST /generate` handler), after the
auth middleware has resolved `uid`: validate the body, look up the model,
resolve the balance, gate on `currentBalance < requiredCredits`, then
perform the two writes (request row, then consumption ledger entry) —
in the source these are two separate awaited `create` calls, not a
`prisma.$transaction`. -/
def createGenerationRequest (db : DB) (uid : String) (d : SubmitData) :
    SubmitResult × DB :=
  if ¬ generationRequestSchemaValid d then
    (SubmitResult.invalidParams, db)
  else
    match findActiveModel db d.model_id with
    | none => (SubmitResult.invalidModel, db)
    | some model =>
      let balance := currentBalance db uid
      let required := requiredCreditsOf d.num_outputs model.costPerRequest
      if balance < required then
        (SubmitResult.insufficientCredits required balance, db)
      else
        let req := newRequestRow db uid d required
        let entry := newDebitRow db uid required balance req.id
        (SubmitResult.accepted req.id,
          { db with
              requests := db.requests ++ [req]
              credits := db.credits ++ [entry]
              nextId := db.nextId + 2
              now := db.now + 1 })

/-- Execution of `createGenerationRequest` in which the second write
(`prisma.userCredit.create`) rejects — e.g. a store fault — after
`prisma.generationRequest.create` has already committed. The `catch`
block only returns a 500 response; since the two creates are not wrapped
in a `prisma.$transaction`, the request row is not rolled back. `none`
stands for the 500 `Failed to create generation request` response. -/
def createGenerationRequestLedgerWriteFails (db : DB) (uid : String)
    (d : SubmitData) : Option SubmitResult × DB :=
  if ¬ generationRequestSchemaValid d then
    (some SubmitResult.invalidParams, db)
  else
    match findActiveModel db d.model_id with
    | none => (some SubmitResult.invalidModel, db)
    | some model =>
      let balance := currentBalance db uid
      let required := requiredCreditsOf d.num_outputs model.costPerRequest
      if balance < required then
        (some (SubmitResult.insufficientCredits required balance), db)
      else
        let req := newRequestRow db uid d required
        (none,
          { db with
              requests := db.requests ++ [req]
              nextId := db.nextId + 1
              now := db.now + 1 })

/-- Outcome of `cancelGenerationRequest` (HTTP status in parentheses). -/
inductive CancelResult where
  /-- 404 `Generation request not found`. -/
  | notFound
  /-- 400 `Cannot cancel request with status: ...`. -/
  | invalidState (status : RequestStatus)
  /-- 200 with `refunded_credits`. -/
  | ok (refunded_credits : ℚ)
deriving DecidableEq, Repr

/-- The `user_credits` row written by `prisma.userCredit.create` in
`cancelGenerationRequest`. -/
def newRefundRow (db : DB) (uid : String) (creditsCharged balance : ℚ)
    (reqId : Nat) : UserCredit :=
  { id := db.nextId
    userId := uid
    requestId := some reqId
    transactionType := CreditTransactionType.refund
    amount := creditsCharged
    balanceAfter := balance + creditsCharged
    notes := some ("Credit refund for cancelled request " ++ toString reqId)
    transactionTime := db.now }

/-- `prisma.generationRequest.update({where: {id: requestId}, data:
{status: failed, errorMessage: 'Cancelled by user', completedAt: now}})`
applied to the table rows. -/
def cancelUpdateRow (now : Nat) (requestId : Nat) (r : GenerationRequest) :
    GenerationRequest :=
  if r.id == requestId then
    { r with
        status := RequestStatus.failed
        errorMessage := some "Cancelled by user"
        completedAt := some now }
  else r

/-- `cancelGenerationRequest` (the `POST /generation-requests/:id/cancel`
handler), after auth: ownership lookup via `findFirst({where: {id,
userId}})`, terminal-state check, status update, then (only when
`creditsCharged > 0`) a balance resolve and a refund ledger append. -/
def cancelGenerationRequest (db : DB) (uid : String) (requestId : Nat) :
    CancelResult × DB :=
  match (db.requests.filter
      (fun r => r.id == requestId && r.userId == uid)).head? with
  | none => (CancelResult.notFound, db)
  | some request =>
    if request.status = RequestStatus.completed ∨
        request.status = RequestStatus.failed then
      (CancelResult.invalidState request.status, db)
    else
      let db1 : DB :=
        { db with requests := db.requests.map (cancelUpdateRow db.now requestId) }
      if request.creditsCharged > 0 then
        let balance := currentBalance db1 uid
        let entry := newRefundRow db1 uid request.creditsCharged balance request.id
        (CancelResult.ok request.creditsCharged,
          { db1 with
              credits := db1.credits ++ [entry]
              nextId := db1.nextId + 1
              now := db1.now + 1 })
      else
        (CancelResult.ok request.creditsCharged, { db1 with now := db1.now + 1 })

/-- Outcome of `getGenerationRequestById`. -/
inductive GetByIdResult where
  /-- 404 `Generation request not found`. -/
  | notFound
  /-- 200 with the formatted request detail. -/
  | ok (request : GenerationRequest)
deriving DecidableEq, Repr

/-- `getGenerationRequestById` (the `GET /generation-requests/:id`
handler), after auth: a pure read via `findFirst({where: {id: requestId,
userId}})`; a missing row and a row owned by another user both take the
same 404 branch. The formatting of the 200 payload is a projection of the
row and is not further modelled. -/
def getGenerationRequestById (db : DB) (uid : String) (requestId : Nat) :
    GetByIdResult :=
  match (db.requests.filter
      (fun r => r.id == requestId && r.userId == uid)).head? with
  | none => GetByIdResult.notFound
  | some request => GetByIdResult.ok request

/-! ### Ledger chain well-formedness

`chainOk` is the per-user chain invariant of spec §3 (`balanceAfter` of
each entry equals the previous entry's `balanceAfter` plus this entry's
`amount`, starting from `0`), read along the store's insertion order.
`lastBal` is the running balance after a list of entries. `WFledger`
records what the abstracted clock guarantees about real executions:
timestamps strictly increase along insertion order and stay below the
current clock. -/

/-- Per-user chain invariant, with `c` the balance before the list. -/
def chainOk : ℚ → List UserCredit → Bool
  | _, [] => true
  | c, e :: rest => (e.balanceAfter == c + e.amount) && chainOk e.balanceAfter rest

/-- Running balance after a list of entries, starting from `c`. -/
def lastBal : ℚ → List UserCredit → ℚ
  | c, [] => c
  | _, e :: rest => lastBal e.balanceAfter rest

/-- Strict ordering of entries by transaction time. -/
def timeLT (a b : UserCredit) : Prop :=
  a.transactionTime < b.transactionTime

/-- Clock discipline of the store model: entry timestamps strictly
increase in insertion order and are all in the past. -/
def WFledger (db : DB) : Prop :=
  db.credits.Pairwise timeLT ∧ ∀ e ∈ db.credits, e.transactionTime < db.now

/-- The spec §3 ledger invariant, for every user. -/
def ChainInv (db : DB) : Prop :=
  ∀ u : String, chainOk 0 (userEntries db u) = true

/-- Interleaved execution of two concurrent `createGenerationRequest`
calls for the same user and body. Every `await` in the handler is a
scheduling point; in this schedule both handlers complete their reads
(model lookup, balance query) before either performs its writes, then
handler A commits its request row and debit, then handler B commits its
own — still priced and gated against the balance it read before A's
debit existed. Nothing in the source rules this schedule out: the
balance-check-then-debit sequence is neither inside a transaction nor
guarded by a lock. -/
def doubleSubmitSameStaleRead (db : DB) (uid : String) (d : SubmitData) :
    (SubmitResult × SubmitResult) × DB :=
  if ¬ generationRequestSchemaValid d then
    ((SubmitResult.invalidParams, SubmitResult.invalidParams), db)
  else
    match findActiveModel db d.model_id with
    | none => ((SubmitResult.invalidModel, SubmitResult.invalidModel), db)
    | some model =>
      let balance := currentBalance db uid
      let required := requiredCreditsOf d.num_outputs model.costPerRequest
      if balance < required then
        ((SubmitResult.insufficientCredits required balance,
          SubmitResult.insufficientCredits required balance), db)
      else
        let reqA := newRequestRow db uid d required
        let dbA : DB :=
          { db with
              requests := db.requests ++ [reqA]
              credits := db.credits ++ [newDebitRow db uid required balance reqA.id]
              nextId := db.nextId + 2
              now := db.now + 1 }
        let reqB := newRequestRow dbA uid d required
        ((SubmitResult.accepted reqA.id, SubmitResult.accepted reqB.id),
          { dbA with
              requests := dbA.requests ++ [reqB]
              credits := dbA.credits ++ [newDebitRow dbA uid required balance reqB.id]
              nextId := dbA.nextId + 2
              now := dbA.now + 1 })

/-- One step of the balance-resolver ordering as the spec words it
(§4.1): most recent by transaction time, ties broken by the greater
entry identifier. Stated only to compare against `pickLater`, the
ordering the code actually performs. -/
def pickLaterSpec (acc : Option UserCredit) (e : UserCredit) :
    Option UserCredit :=
  match acc with
  | none => some e
  | some a =>
    if a.transactionTime < e.transactionTime ∨
        (a.transactionTime = e.transactionTime ∧ a.id < e.id) then some e
    else some a

/-- Balance resolver following the spec §4.1 wording (`balanceAfter` of
the most recent entry ordered by transaction time, ties broken by entry
identifier, or 0 with no entries), for comparison with
`currentBalance`. -/
def specCurrentBalance (db : DB) (uid : String) : ℚ :=
  match (userEntries db uid).foldl pickLaterSpec none with
  | some e => e.balanceAfter
  | none => 0

/-! ### Concrete fixtures used by witnesses and counterexamples -/

/-- An active model priced at 2 credits per output. -/
def modelCost2 : AiModel := { id := 1, isActive := true, costPerRequest := some 2 }

/-- An active model whose `costPerRequest` is the decimal `0`. -/
def modelCost0 : AiModel := { id := 2, isActive := true, costPerRequest := some 0 }

/-- An active model priced at 4 credits per output. -/
def modelCost4 : AiModel := { id := 3, isActive := true, costPerRequest := some 4 }

/-- An active model whose `costPerRequest` is `NULL`. -/
def modelCostNull : AiModel := { id := 4, isActive := true, costPerRequest := none }

/-- A valid submit body for `modelCost2` with `num_outputs = 2`. -/
def bodyOutputs2 : SubmitData :=
  { model_id := 1, prompt := "a ghibli landscape", negative_prompt := none,
    aspect_ratio := none, num_outputs := 2, style_preset := none, seed := none,
    quality := none, api_specific_parameters := none }

/-- A valid submit body for the zero-cost model with `num_outputs = 2`. -/
def bodyZeroCost : SubmitData :=
  { model_id := 2, prompt := "a castle in the sky", negative_prompt := none,
    aspect_ratio := none, num_outputs := 2, style_preset := none, seed := none,
    quality := none, api_specific_parameters := none }

/-- A valid submit body for `modelCost4` with `num_outputs = 1`. -/
def bodyRace : SubmitData :=
  { model_id := 3, prompt := "a cat bus", negative_prompt := none,
    aspect_ratio := none, num_outputs := 1, style_preset := none, seed := none,
    quality := none, api_specific_parameters := none }

/-- A valid submit body for the `NULL`-cost model with `num_outputs = 2`. -/
def bodyNullCost : SubmitData :=
  { model_id := 4, prompt := "a forest spirit", negative_prompt := none,
    aspect_ratio := none, num_outputs := 2, style_preset := none, seed := none,
    quality := none, api_specific_parameters := none }

/-- A purchase ledger entry giving alice a balance of 5. -/
def purchase5 : UserCredit :=
  { id := 1, userId := "alice", requestId := none,
    transactionType := CreditTransactionType.purchase, amount := 5,
    balanceAfter := 5, notes := none, transactionTime := 0 }

/-- A purchase ledger entry giving dana a balance of 4. -/
def purchase4dana : UserCredit :=
  { id := 1, userId := "dana", requestId := none,
    transactionType := CreditTransactionType.purchase, amount := 4,
    balanceAfter := 4, notes := none, transactionTime := 0 }

/-- First of two ledger entries sharing the same `transactionTime`. -/
def tieEntry1 : UserCredit :=
  { id := 1, userId := "tina", requestId := none,
    transactionType := CreditTransactionType.purchase, amount := 10,
    balanceAfter := 10, notes := none, transactionTime := 5 }

/-- Second entry with the same `transactionTime` but a greater id. -/
def tieEntry2 : UserCredit :=
  { id := 2, userId := "tina", requestId := none,
    transactionType := CreditTransactionType.purchase, amount := 10,
    balanceAfter := 20, notes := none, transactionTime := 5 }

/-- A pending request of alice charged 3 credits. -/
def pendingAlice3 : GenerationRequest :=
  { id := 1, userId := "alice", modelId := 1, prompt := "a ghibli landscape",
    negativePrompt := none, aspectRatio := none, stylePreset := none,
    seed := none, numOutputs := 1, quality := none,
    status := RequestStatus.pending, apiSpecificParameters := none,
    errorMessage := none, creditsCharged := 3, requestedAt := 1,
    processingStartedAt := none, completedAt := none }

/-- A completed request of bob. -/
def doneBob : GenerationRequest :=
  { id := 2, userId := "bob", modelId := 1, prompt := "a red torii gate",
    negativePrompt := none, aspectRatio := none, stylePreset := none,
    seed := none, numOutputs := 1, quality := none,
    status := RequestStatus.completed, apiSpecificParameters := none,
    errorMessage := none, creditsCharged := 2, requestedAt := 1,
    processingStartedAt := none, completedAt := some 3 }

/-- Store with `modelCost2` and alice holding a balance of 5. -/
def dbRich : DB :=
  { models := [modelCost2], requests := [], credits := [purchase5],
    nextId := 10, now := 1 }

/-- Store with `modelCost2` and no ledger entries at all. -/
def dbPoor : DB :=
  { models := [modelCost2], requests := [], credits := [], nextId := 10, now := 1 }

/-- Store with the zero-cost model and alice holding a balance of 5. -/
def dbZeroCost : DB :=
  { models := [modelCost0], requests := [], credits := [purchase5],
    nextId := 20, now := 1 }

/-- Store with the `NULL`-cost model and alice holding a balance of 5. -/
def dbNullCost : DB :=
  { models := [modelCostNull], requests := [], credits := [purchase5],
    nextId := 30, now := 1 }

/-- Store with `modelCost4` and dana holding a balance of exactly 4 —
one request's cost. -/
def dbRace : DB :=
  { models := [modelCost4], requests := [], credits := [purchase4dana],
    nextId := 10, now := 1 }

/-- Store whose ledger holds the two tied entries of tina. -/
def dbTie : DB :=
  { models := [], requests := [], credits := [tieEntry1, tieEntry2],
    nextId := 3, now := 6 }

/-- Store holding alice's pending request and an empty ledger. -/
def dbCancel : DB :=
  { models := [], requests := [pendingAlice3], credits := [], nextId := 5, now := 7 }

/-- Store holding bob's completed request. -/
def dbDone : DB :=
  { models := [], requests := [doneBob], credits := [], nextId := 5, now := 7 }

theorem chainOk_append (c : ℚ) (l : List UserCredit) (e : UserCredit) :
    chainOk c (l ++ [e]) =
      (chainOk c l && (e.balanceAfter == lastBal c l + e.amount)) := by
  induction l generalizing c with
  | nil => simp [chainOk, lastBal]
  | cons x xs ih => simp [chainOk, lastBal, ih, Bool.and_assoc]

theorem lastBal_append (c : ℚ) (l : List UserCredit) (e : UserCredit) :
    lastBal c (l ++ [e]) = e.balanceAfter := by
  induction l generalizing c with
  | nil => rfl
  | cons x xs ih => simpa [lastBal] using ih x.balanceAfter

theorem lastBal_eq_add_sum (c : ℚ) (l : List UserCredit)
    (h : chainOk c l = true) :
    lastBal c l = c + (l.map (fun e => e.amount)).sum := by
  induction l generalizing c with
  | nil => simp [lastBal]
  | cons x xs ih =>
    simp only [chainOk, Bool.and_eq_true, beq_iff_eq] at h
    simp only [lastBal, List.map_cons, List.sum_cons]
    rw [ih x.balanceAfter h.2, h.1]
    ring

theorem lastBal_getLast? (l : List UserCredit) (c : ℚ) (e : UserCredit)
    (h : l.getLast? = some e) : lastBal c l = e.balanceAfter := by
  induction l generalizing c with
  | nil => simp at h
  | cons x xs ih =>
    cases xs with
    | nil => simp at h; simp [lastBal, h]
    | cons y ys =>
      rw [List.getLast?_cons_cons] at h
      exact ih x.balanceAfter h

theorem foldl_pickLater_mem (l : List UserCredit) (acc : Option UserCredit)
    (e : UserCredit) (h : l.foldl pickLater acc = some e) :
    acc = some e ∨ e ∈ l := by
  induction l generalizing acc with
  | nil => exact Or.inl h
  | cons x xs ih =>
    rcases ih (pickLater acc x) h with h' | h'
    · cases acc with
      | none =>
        simp [pickLater] at h'
        exact Or.inr (by simp [h'])
      | some a =>
        simp only [pickLater] at h'
        split at h'
        · exact Or.inr (by simp [← Option.some_inj.mp h'])
        · exact Or.inl h'
    · exact Or.inr (List.mem_cons_of_mem _ h')

theorem foldl_pickLater_maxTime (l : List UserCredit) (acc : Option UserCredit)
    (e : UserCredit) (h : l.foldl pickLater acc = some e) :
    (∀ a, acc = some a → a.transactionTime ≤ e.transactionTime) ∧
      ∀ x ∈ l, x.transactionTime ≤ e.transactionTime := by
  induction l generalizing acc with
  | nil =>
    refine ⟨fun a ha => ?_, by simp⟩
    rw [ha] at h
    simp only [List.foldl_nil, Option.some_inj] at h
    exact h ▸ le_refl _
  | cons x xs ih =>
    have step := ih (pickLater acc x) h
    have hx : x.transactionTime ≤ e.transactionTime := by
      cases acc with
      | none => exact step.1 x rfl
      | some a =>
        simp only [pickLater] at step
        by_cases hlt : a.transactionTime < x.transactionTime
        · exact step.1 x (by simp [hlt])
        · exact le_trans (le_of_not_lt hlt) (step.1 a (by simp [hlt]))
    refine ⟨fun a ha => ?_, fun y hy => ?_⟩
    · cases acc with
      | none => simp at ha
      | some b =>
        have hb : b = a := by simpa using ha
        subst hb
        simp only [pickLater] at step
        by_cases hlt : b.transactionTime < x.transactionTime
        · exact le_trans (le_of_lt hlt) (step.1 x (by simp [hlt]))
        · exact step.1 b (by simp [hlt])
    · rcases List.mem_cons.mp hy with rfl | hy'
      · exact hx
      · exact step.2 y hy'

theorem foldl_pickLater_isSome (l : List UserCredit) (a : UserCredit) :
    (l.foldl pickLater (some a)).isSome = true := by
  induction l generalizing a with
  | nil => rfl
  | cons x xs ih =>
    simp only [List.foldl_cons, pickLater]
    split
    · exact ih x
    · exact ih a

theorem foldl_pickLater_ne_none (l : List UserCredit) (hl : l ≠ []) :
    (l.foldl pickLater none).isSome = true := by
  cases l with
  | nil => exact absurd rfl hl
  | cons x xs => simpa [pickLater] using foldl_pickLater_isSome xs x

theorem foldl_pickLater_lastBal (l : List UserCredit)
    (hp : l.Pairwise timeLT) :
    (match l.foldl pickLater none with
      | some e => e.balanceAfter
      | none => (0 : ℚ)) = lastBal 0 l := by
  induction l using List.reverseRecOn with
  | nil => rfl
  | append_singleton l e ih =>
    have hl : l.Pairwise timeLT := (List.pairwise_append.mp hp).1
    have hlast : ∀ x ∈ l, timeLT x e := by
      intro x hx
      exact (List.pairwise_append.mp hp).2.2 x hx e (by simp)
    rw [List.foldl_append, lastBal_append]
    cases hacc : l.foldl pickLater none with
    | none => simp [pickLater]
    | some a =>
      have ha : a ∈ l := by
        rcases foldl_pickLater_mem l none a hacc with h | h
        · simp at h
        · exact h
      have hae : a.transactionTime < e.transactionTime := hlast a ha
      simp [pickLater, hae]

theorem currentBalance_eq_lastBal (db : DB) (uid : String)
    (hp : db.credits.Pairwise timeLT) :
    currentBalance db uid = lastBal 0 (userEntries db uid) := by
  have hsub : (userEntries db uid).Pairwise timeLT :=
    hp.sublist (List.filter_sublist _)
  unfold currentBalance latestCredit
  exact foldl_pickLater_lastBal _ hsub

theorem mem_of_head?_eq_some {α : Type} {l : List α} {a : α}
    (h : l.head? = some a) : a ∈ l := by
  cases l with
  | nil => simp at h
  | cons x xs => simp at h; simp [h]

/-! ### Branch characterizations of the handlers -/

theorem createGenerationRequest_denied (db : DB) (uid : String)
    (d : SubmitData) (m : AiModel)
    (hv : generationRequestSchemaValid d = true)
    (hm : findActiveModel db d.model_id = some m)
    (hlt : currentBalance db uid < requiredCreditsOf d.num_outputs m.costPerRequest) :
    createGenerationRequest db uid d =
      (SubmitResult.insufficientCredits
        (requiredCreditsOf d.num_outputs m.costPerRequest)
        (currentBalance db uid), db) := by
  unfold createGenerationRequest
  simp only [hv, hm, not_true_eq_false, if_false, if_pos hlt]

theorem createGenerationRequest_granted (db : DB) (uid : String)
    (d : SubmitData) (m : AiModel)
    (hv : generationRequestSchemaValid d = true)
    (hm : findActiveModel db d.model_id = some m)
    (hge : ¬ currentBalance db uid < requiredCreditsOf d.num_outputs m.costPerRequest) :
    createGenerationRequest db uid d =
      (SubmitResult.accepted db.nextId,
        { db with
            requests := db.requests ++
              [newRequestRow db uid d
                (requiredCreditsOf d.num_outputs m.costPerRequest)]
            credits := db.credits ++
              [newDebitRow db uid
                (requiredCreditsOf d.num_outputs m.costPerRequest)
                (currentBalance db uid) db.nextId]
            nextId := db.nextId + 2
            now := db.now + 1 }) := by
  unfold createGenerationRequest
  simp only [hv, hm, not_true_eq_false, if_false, if_neg hge]
  rfl

theorem cancelGenerationRequest_notFound (db : DB) (uid : String) (rid : Nat)
    (h : (db.requests.filter
        (fun r => r.id == rid && r.userId == uid)).head? = none) :
    cancelGenerationRequest db uid rid = (CancelResult.notFound, db) := by
  unfold cancelGenerationRequest
  simp only [h]

theorem cancelGenerationRequest_terminal (db : DB) (uid : String) (rid : Nat)
    (r : GenerationRequest)
    (hr : (db.requests.filter
        (fun q => q.id == rid && q.userId == uid)).head? = some r)
    (hterm : r.status = RequestStatus.completed ∨
      r.status = RequestStatus.failed) :
    cancelGenerationRequest db uid rid =
      (CancelResult.invalidState r.status, db) := by
  unfold cancelGenerationRequest
  simp only [hr, if_pos hterm]

theorem cancelGenerationRequest_refund (db : DB) (uid : String) (rid : Nat)
    (r : GenerationRequest)
    (hr : (db.requests.filter
        (fun q => q.id == rid && q.userId == uid)).head? = some r)
    (hs : ¬ (r.status = RequestStatus.completed ∨
      r.status = RequestStatus.failed))
    (hpos : r.creditsCharged > 0) :
    cancelGenerationRequest db uid rid =
      (CancelResult.ok r.creditsCharged,
        { db with
            requests := db.requests.map (cancelUpdateRow db.now rid)
            credits := db.credits ++
              [newRefundRow db uid r.creditsCharged
                (currentBalance db uid) r.id]
            nextId := db.nextId + 1
            now := db.now + 1 }) := by
  unfold cancelGenerationRequest
  simp only [hr, if_neg hs, if_pos hpos]
  rfl

theorem cancelGenerationRequest_noRefund (db : DB) (uid : String) (rid : Nat)
    (r : GenerationRequest)
    (hr : (db.requests.filter
        (fun q => q.id == rid && q.userId == uid)).head? = some r)
    (hs : ¬ (r.status = RequestStatus.completed ∨
      r.status = RequestStatus.failed))
    (hnp : ¬ r.creditsCharged > 0) :
    cancelGenerationRequest db uid rid =
      (CancelResult.ok r.creditsCharged,
        { db with
            requests := db.requests.map (cancelUpdateRow db.now rid)
            now := db.now + 1 }) := by
  unfold cancelGenerationRequest
  simp only [hr, if_neg hs, if_neg hnp]

theorem createGenerationRequest_invalidParams (db : DB) (uid : String)
    (d : SubmitData) (hv : generationRequestSchemaValid d = false) :
    createGenerationRequest db uid d = (SubmitResult.invalidParams, db) := by
  unfold createGenerationRequest
  simp [hv]

theorem createGenerationRequest_invalidModel (db : DB) (uid : String)
    (d : SubmitData) (hv : generationRequestSchemaValid d = true)
    (hm : findActiveModel db d.model_id = none) :
    createGenerationRequest db uid d = (SubmitResult.invalidModel, db) := by
  unfold createGenerationRequest
  simp only [hv, hm, not_true_eq_false, if_false]

theorem createGenerationRequestLedgerWriteFails_granted (db : DB)
    (uid : String) (d : SubmitData) (m : AiModel)
    (hv : generationRequestSchemaValid d = true)
    (hm : findActiveModel db d.model_id = some m)
    (hge : ¬ currentBalance db uid < requiredCreditsOf d.num_outputs m.costPerRequest) :
    createGenerationRequestLedgerWriteFails db uid d =
      (none,
        { db with
            requests := db.requests ++
              [newRequestRow db uid d
                (requiredCreditsOf d.num_outputs m.costPerRequest)]
            nextId := db.nextId + 1
            now := db.now + 1 }) := by
  unfold createGenerationRequestLedgerWriteFails
  simp only [hv, hm, not_true_eq_false, if_false, if_neg hge]

theorem doubleSubmitSameStaleRead_granted (db : DB) (uid : String)
    (d : SubmitData) (m : AiModel)
    (hv : generationRequestSchemaValid d = true)
    (hm : findActiveModel db d.model_id = some m)
    (hge : ¬ currentBalance db uid < requiredCreditsOf d.num_outputs m.costPerRequest) :
    doubleSubmitSameStaleRead db uid d =
      (let balance := currentBalance db uid
       let required := requiredCreditsOf d.num_outputs m.costPerRequest
       let reqA := newRequestRow db uid d required
       let dbA : DB :=
         { db with
             requests := db.requests ++ [reqA]
             credits := db.credits ++ [newDebitRow db uid required balance reqA.id]
             nextId := db.nextId + 2
             now := db.now + 1 }
       let reqB := newRequestRow dbA uid d required
       ((SubmitResult.accepted reqA.id, SubmitResult.accepted reqB.id),
         { dbA with
             requests := dbA.requests ++ [reqB]
             credits := dbA.credits ++ [newDebitRow dbA uid required balance reqB.id]
             nextId := dbA.nextId + 2
             now := dbA.now + 1 })) := by
  unfold doubleSubmitSameStaleRead
  simp only [hv, hm, not_true_eq_false, if_false, if_neg hge]

theorem head?_filter_map_idPres (f : GenerationRequest → GenerationRequest)
    (p : GenerationRequest → Bool) (hp : ∀ x, p (f x) = p x)
    (l : List GenerationRequest) :
    ((l.map f).filter p).head? = ((l.filter p).head?).map f := by
  induction l with
  | nil => rfl
  | cons x xs ih =>
    by_cases hx : p x = true
    · simp [List.filter_cons, hp x, hx]
    · simp only [Bool.not_eq_true] at hx
      simp [List.filter_cons, hp x, hx, ih]

theorem cancelUpdateRow_id (now rid : Nat) (r : GenerationRequest) :
    (cancelUpdateRow now rid r).id = r.id := by
  unfold cancelUpdateRow
  split <;> rfl

theorem cancelUpdateRow_userId (now rid : Nat) (r : GenerationRequest) :
    (cancelUpdateRow now rid r).userId = r.userId := by
  unfold cancelUpdateRow
  split <;> rfl

/-! ### Appending one chained entry preserves the ledger invariants -/

theorem append_entry_preserves (db db' : DB) (e : UserCredit)
    (hwf : WFledger db) (hinv : ChainInv db)
    (ht : e.transactionTime = db.now)
    (hb : e.balanceAfter = currentBalance db e.userId + e.amount)
    (hcred : db'.credits = db.credits ++ [e])
    (hnow : db.now < db'.now) :
    WFledger db' ∧ ChainInv db' := by
  refine ⟨⟨?_, ?_⟩, ?_⟩
  · rw [hcred]
    refine List.pairwise_append.mpr ⟨hwf.1, List.pairwise_singleton _ _, ?_⟩
    intro a ha b hb'
    simp only [List.mem_singleton] at hb'
    rw [hb']
    show a.transactionTime < e.transactionTime
    rw [ht]
    exact hwf.2 a ha
  · intro x hx
    rw [hcred] at hx
    rcases List.mem_append.mp hx with h | h
    · exact lt_trans (hwf.2 x h) hnow
    · simp only [List.mem_singleton] at h
      subst h
      rw [ht]
      exact hnow
  · intro u
    have hsplit : userEntries db' u =
        userEntries db u ++ List.filter (fun x => x.userId == u) [e] := by
      simp [userEntries, hcred]
    rw [hsplit]
    by_cases hu : e.userId = u
    · have : List.filter (fun x => x.userId == u) [e] = [e] := by simp [hu]
      rw [this, chainOk_append]
      have h1 := hinv u
      have h2 : currentBalance db u = lastBal 0 (userEntries db u) :=
        currentBalance_eq_lastBal db u hwf.1
      rw [h1]
      simp only [Bool.true_and, beq_iff_eq]
      rw [hb, hu, h2]
    · have : List.filter (fun x => x.userId == u) [e] = [] := by simp [hu]
      rw [this, List.append_nil]
      exact hinv u

/-! ### Claims -/

/-- C1: whenever the resolved balance is strictly below `requiredCredits`,
`createGenerationRequest` fails with the 402 `insufficientCredits` result
carrying the pair `{required, available}` and returns the store unchanged
— no request row is created and no ledger entry is appended; moreover any
debit the handler does append has a non-negative `balanceAfter`, so a
charge the system itself initiates never drives the derived balance
negative. -/
theorem C1_insufficient_credits_rejected_without_writes
    (db : DB) (uid : String) (d : SubmitData) (m : AiModel)
    (hv : generationRequestSchemaValid d = true)
    (hm : findActiveModel db d.model_id = some m) :
    (currentBalance db uid < requiredCreditsOf d.num_outputs m.costPerRequest →
      createGenerationRequest db uid d =
        (SubmitResult.insufficientCredits
          (requiredCreditsOf d.num_outputs m.costPerRequest)
          (currentBalance db uid), db))
    ∧ ∀ e : UserCredit,
        (createGenerationRequest db uid d).2.credits = db.credits ++ [e] →
        0 ≤ e.balanceAfter := by
  constructor
  · intro hlt
    exact createGenerationRequest_denied db uid d m hv hm hlt
  · intro e he
    by_cases hlt :
      currentBalance db uid < requiredCreditsOf d.num_outputs m.costPerRequest
    · rw [createGenerationRequest_denied db uid d m hv hm hlt] at he
      have : (db.credits.length : Int) = db.credits.length + 1 := by
        simpa using congrArg (fun l => (List.length l : Int)) he
      omega
    · rw [createGenerationRequest_granted db uid d m hv hm hlt] at he
      simp only [List.append_cancel_left_eq, List.cons.injEq, and_true] at he
      rw [← he]
      show (0 : ℚ) ≤ currentBalance db uid -
        requiredCreditsOf d.num_outputs m.costPerRequest
      have := not_lt.mp hlt
      linarith

/-- C1 witness: with no ledger entries (balance 0) and a required cost of
4, the submit returns the 402 payload `{required: 4, available: 0}` and
the store is unchanged. -/
theorem C1_witness_poor_user :
    createGenerationRequest dbPoor "alice" bodyOutputs2 =
      (SubmitResult.insufficientCredits 4 0, dbPoor) := by
  have hv : generationRequestSchemaValid bodyOutputs2 = true := rfl
  have hm : findActiveModel dbPoor bodyOutputs2.model_id = some modelCost2 := rfl
  have hreq : requiredCreditsOf bodyOutputs2.num_outputs modelCost2.costPerRequest = 4 := by
    norm_num [requiredCreditsOf, bodyOutputs2, modelCost2]
  have hbal : currentBalance dbPoor "alice" = 0 := rfl
  have hlt : currentBalance dbPoor "alice" <
      requiredCreditsOf bodyOutputs2.num_outputs modelCost2.costPerRequest := by
    rw [hreq, hbal]; norm_num
  have h := (C1_insufficient_credits_rejected_without_writes dbPoor "alice"
    bodyOutputs2 modelCost2 hv hm).1 hlt
  rw [hreq, hbal] at h
  exact h

/-- C8: `getGenerationRequestById` is a read (it produces only a result,
never a new store) and verifies ownership: whenever no request row has
both the requested id and the caller as owner — because the id does not
exist at all or because the row belongs to a different user — the result
is the very same `notFound` (404) value, so a caller cannot distinguish
another user's request from a nonexistent one. -/
theorem C8_getById_hides_foreign_requests
    (db : DB) (uid : String) (requestId : Nat)
    (h : ∀ r ∈ db.requests, r.id = requestId → r.userId ≠ uid) :
    getGenerationRequestById db uid requestId = GetByIdResult.notFound := by
  unfold getGenerationRequestById
  have hnil : (db.requests.filter
      (fun r => r.id == requestId && r.userId == uid)) = [] := by
    rw [List.filter_eq_nil_iff]
    intro r hr
    intro hc
    simp only [Bool.and_eq_true, beq_iff_eq] at hc
    exact h r hr hc.1 hc.2
  rw [hnil]
  rfl

/-- C8 witness: bob requesting alice's request (id 1) and bob requesting
a nonexistent id (99) receive the identical `notFound` outcome. -/
theorem C8_witness_foreign_and_missing :
    getGenerationRequestById dbCancel "bob" 1 = GetByIdResult.notFound
    ∧ getGenerationRequestById dbCancel "bob" 99 = GetByIdResult.notFound := by
  constructor
  · apply C8_getById_hides_foreign_requests
    intro r hr h1
    have : r = pendingAlice3 := by simpa [dbCancel] using hr
    subst this
    intro hc
    exact absurd hc (by simp [pendingAlice3])
  · apply C8_getById_hides_foreign_requests
    intro r hr h1
    have : r = pendingAlice3 := by simpa [dbCancel] using hr
    subst this
    exact absurd h1 (by simp [pendingAlice3])

/-- C10: when the selected active model's `costPerRequest` is `NULL` or
`0`, the JavaScript `|| 1` fallback prices the request at 1 credit per
output, so `requiredCredits = num_outputs`; with sufficient balance the
request is accepted and the created row is charged exactly
`num_outputs` credits rather than being free or rejected. -/
theorem C10_null_or_zero_cost_prices_one_per_output
    (db : DB) (uid : String) (d : SubmitData) (m : AiModel)
    (hv : generationRequestSchemaValid d = true)
    (hm : findActiveModel db d.model_id = some m)
    (hc : m.costPerRequest = none ∨ m.costPerRequest = some 0)
    (hb : ¬ currentBalance db uid < (d.num_outputs : ℚ)) :
    requiredCreditsOf d.num_outputs m.costPerRequest = (d.num_outputs : ℚ)
    ∧ (createGenerationRequest db uid d).1 = SubmitResult.accepted db.nextId
    ∧ (createGenerationRequest db uid d).2.requests =
        db.requests ++ [newRequestRow db uid d (d.num_outputs : ℚ)]
    ∧ (newRequestRow db uid d ((d.num_outputs : ℚ))).creditsCharged =
        (d.num_outputs : ℚ) := by
  have hreq : requiredCreditsOf d.num_outputs m.costPerRequest = (d.num_outputs : ℚ) := by
    rcases hc with hc | hc <;> simp [requiredCreditsOf, hc]
  have hge : ¬ currentBalance db uid <
      requiredCreditsOf d.num_outputs m.costPerRequest := by
    rw [hreq]; exact hb
  have hg := createGenerationRequest_granted db uid d m hv hm hge
  refine ⟨hreq, ?_, ?_, rfl⟩
  · rw [hg]
  · rw [hg, hreq]

/-- C10 witness: the `NULL`-cost model with `num_outputs = 2` and balance
5 yields `requiredCredits = 2` and an accepted request charged 2. -/
theorem C10_witness_null_cost :
    requiredCreditsOf bodyNullCost.num_outputs modelCostNull.costPerRequest = 2
    ∧ (createGenerationRequest dbNullCost "alice" bodyNullCost).1 =
        SubmitResult.accepted 30 := by
  have hv : generationRequestSchemaValid bodyNullCost = true := rfl
  have hm : findActiveModel dbNullCost bodyNullCost.model_id = some modelCostNull := rfl
  have hbal : currentBalance dbNullCost "alice" = 5 := rfl
  have hb : ¬ currentBalance dbNullCost "alice" < (bodyNullCost.num_outputs : ℚ) := by
    rw [hbal]
    norm_num [bodyNullCost]
  have h := C10_null_or_zero_cost_prices_one_per_output dbNullCost "alice"
    bodyNullCost modelCostNull hv hm (Or.inl rfl) hb
  refine ⟨?_, h.2.1⟩
  rw [h.1]
  norm_num [bodyNullCost]

/-- C5 counterexample: a submit against a valid active model whose
`costPerRequest` is the decimal `0` (balance 5, `num_outputs = 2`). The
code charges `requiredCredits = 2` — the `|| 1` fallback — and the
created row records `creditsCharged = 2`, while
`numOutputs × costPerRequest = 2 × 0 = 0`, so the claimed equality
fails for this submit. -/
theorem C5_counterexample_zero_cost_model :
    findActiveModel dbZeroCost bodyZeroCost.model_id = some modelCost0
    ∧ modelCost0.costPerRequest = some 0
    ∧ requiredCreditsOf bodyZeroCost.num_outputs modelCost0.costPerRequest = 2
    ∧ ((createGenerationRequest dbZeroCost "alice" bodyZeroCost).2.requests.map
        (fun r => r.creditsCharged)) = [2]
    ∧ requiredCreditsOf bodyZeroCost.num_outputs modelCost0.costPerRequest ≠
        (bodyZeroCost.num_outputs : ℚ) * 0 := by
  have hv : generationRequestSchemaValid bodyZeroCost = true := rfl
  have hm : findActiveModel dbZeroCost bodyZeroCost.model_id = some modelCost0 := rfl
  have hreq : requiredCreditsOf bodyZeroCost.num_outputs modelCost0.costPerRequest = 2 := by
    norm_num [requiredCreditsOf, bodyZeroCost, modelCost0]
  have hbal : currentBalance dbZeroCost "alice" = 5 := rfl
  have hge : ¬ currentBalance dbZeroCost "alice" <
      requiredCreditsOf bodyZeroCost.num_outputs modelCost0.costPerRequest := by
    rw [hreq, hbal]; norm_num
  have hg := createGenerationRequest_granted dbZeroCost "alice" bodyZeroCost
    modelCost0 hv hm hge
  refine ⟨hm, rfl, hreq, ?_, ?_⟩
  · rw [hg]
    simp [dbZeroCost, newRequestRow, hreq]
  · rw [hreq]
    norm_num [bodyZeroCost]

/-- C5 (amended): for every submit with a valid active model whose
`costPerRequest` is non-null and non-zero, `requiredCredits` equals
`numOutputs × model.costPerRequest`; and in the spec's example — balance
5, cost-per-output 2, `num_outputs = 2` — `requiredCredits` is 4, the
submit succeeds and the new balance is 1. (As stated the claim fails for
a `NULL` or zero `costPerRequest`, where the code falls back to 1 credit
per output.) -/
theorem C5_pricing_formula_and_example
    (db : DB) (uid : String) (d : SubmitData) (m : AiModel) (c : ℚ)
    (hm : findActiveModel db d.model_id = some m)
    (hc : m.costPerRequest = some c) (hc0 : c ≠ 0) :
    requiredCreditsOf d.num_outputs m.costPerRequest = (d.num_outputs : ℚ) * c
    ∧ requiredCreditsOf bodyOutputs2.num_outputs modelCost2.costPerRequest = 4
    ∧ (createGenerationRequest dbRich "alice" bodyOutputs2).1 =
        SubmitResult.accepted dbRich.nextId
    ∧ currentBalance (createGenerationRequest dbRich "alice" bodyOutputs2).2
        "alice" = 1 := by
  have hreq4 : requiredCreditsOf bodyOutputs2.num_outputs modelCost2.costPerRequest = 4 := by
    norm_num [requiredCreditsOf, bodyOutputs2, modelCost2]
  have hv : generationRequestSchemaValid bodyOutputs2 = true := rfl
  have hmr : findActiveModel dbRich bodyOutputs2.model_id = some modelCost2 := rfl
  have hbal : currentBalance dbRich "alice" = 5 := rfl
  have hge : ¬ currentBalance dbRich "alice" <
      requiredCreditsOf bodyOutputs2.num_outputs modelCost2.costPerRequest := by
    rw [hreq4, hbal]; norm_num
  have hg := createGenerationRequest_granted dbRich "alice" bodyOutputs2
    modelCost2 hv hmr hge
  refine ⟨by simp [requiredCreditsOf, hc, hc0], hreq4, ?_, ?_⟩
  · rw [hg]
  · rw [hg, hreq4, hbal]
    norm_num [currentBalance, latestCredit, userEntries, pickLater, newDebitRow,
      dbRich, purchase5]

/-- C5 witness: the general pricing conjunct applied to the cost-2 model
with `num_outputs = 2` gives 4. -/
theorem C5_witness_cost2 :
    requiredCreditsOf bodyOutputs2.num_outputs modelCost2.costPerRequest =
      (bodyOutputs2.num_outputs : ℚ) * 2 :=
  (C5_pricing_formula_and_example dbRich "alice" bodyOutputs2 modelCost2 2
    rfl rfl (by norm_num)).1

/-- C6: cancelling a request of the caller in status `pending` or
`processing` sets its status to `failed`, its `errorMessage` to
`"Cancelled by user"` and its `completedAt` to the current time; when
`creditsCharged > 0` exactly one `refund` ledger entry is appended, with
`amount = +creditsCharged` and `balanceAfter = current balance +
creditsCharged`, and when `creditsCharged = 0` no entry is appended; the
call returns `creditsCharged` as `refunded_credits`. -/
theorem C6_cancel_active_request
    (db : DB) (uid : String) (requestId : Nat) (r : GenerationRequest)
    (hr : (db.requests.filter
        (fun q => q.id == requestId && q.userId == uid)).head? = some r)
    (hs : r.status = RequestStatus.pending ∨
      r.status = RequestStatus.processing) :
    (cancelGenerationRequest db uid requestId).1 = CancelResult.ok r.creditsCharged
    ∧ (∀ q ∈ (cancelGenerationRequest db uid requestId).2.requests, q.id = requestId →
        q.status = RequestStatus.failed
        ∧ q.errorMessage = some "Cancelled by user"
        ∧ q.completedAt = some db.now)
    ∧ (r.creditsCharged > 0 →
        (cancelGenerationRequest db uid requestId).2.credits =
          db.credits ++
            [newRefundRow db uid r.creditsCharged (currentBalance db uid) r.id]
        ∧ (newRefundRow db uid r.creditsCharged (currentBalance db uid)
            r.id).transactionType = CreditTransactionType.refund
        ∧ (newRefundRow db uid r.creditsCharged (currentBalance db uid)
            r.id).amount = r.creditsCharged
        ∧ (newRefundRow db uid r.creditsCharged (currentBalance db uid)
            r.id).balanceAfter = currentBalance db uid + r.creditsCharged)
    ∧ (r.creditsCharged = 0 →
        (cancelGenerationRequest db uid requestId).2.credits = db.credits) := by
  have hs' : ¬ (r.status = RequestStatus.completed ∨
      r.status = RequestStatus.failed) := by
    rcases hs with h | h <;> simp [h]
  have hreqs : (cancelGenerationRequest db uid requestId).2.requests =
      db.requests.map (cancelUpdateRow db.now requestId) := by
    by_cases hpos : r.creditsCharged > 0
    · rw [cancelGenerationRequest_refund db uid requestId r hr hs' hpos]
    · rw [cancelGenerationRequest_noRefund db uid requestId r hr hs' hpos]
  have hupd : ∀ q ∈ (cancelGenerationRequest db uid requestId).2.requests,
      q.id = requestId →
      q.status = RequestStatus.failed
      ∧ q.errorMessage = some "Cancelled by user"
      ∧ q.completedAt = some db.now := by
    rw [hreqs]
    intro q hq hid
    obtain ⟨x, hx, rfl⟩ := List.mem_map.mp hq
    unfold cancelUpdateRow
    unfold cancelUpdateRow at hid
    by_cases hxid : (x.id == requestId) = true
    · simp [hxid]
    · rw [if_neg (by simp [hxid])] at hid
      exact absurd (by simp [hid] : (x.id == requestId) = true) hxid
  by_cases hpos : r.creditsCharged > 0
  · have hc := cancelGenerationRequest_refund db uid requestId r hr hs' hpos
    refine ⟨by rw [hc], hupd, fun _ => ⟨by rw [hc], rfl, rfl, rfl⟩, ?_⟩
    intro h0
    rw [h0] at hpos
    exact absurd hpos (by norm_num)
  · have hc := cancelGenerationRequest_noRefund db uid requestId r hr hs' hpos
    exact ⟨by rw [hc], hupd, fun h => absurd h hpos, fun _ => by rw [hc]⟩

/-- C6 witness: cancelling alice's pending request (charged 3, balance 0)
returns `refunded_credits = 3`, marks the row failed/cancelled at time 7,
and appends exactly the refund entry with `amount = 3`,
`balanceAfter = 3`. -/
theorem C6_witness_cancel_pending :
    (cancelGenerationRequest dbCancel "alice" 1).1 = CancelResult.ok 3
    ∧ (cancelGenerationRequest dbCancel "alice" 1).2.credits =
        dbCancel.credits ++ [newRefundRow dbCancel "alice" 3 0 1]
    ∧ (∀ q ∈ (cancelGenerationRequest dbCancel "alice" 1).2.requests, q.id = 1 →
        q.status = RequestStatus.failed
        ∧ q.errorMessage = some "Cancelled by user"
        ∧ q.completedAt = some 7) := by
  have hr : (dbCancel.requests.filter
      (fun q => q.id == 1 && q.userId == "alice")).head? = some pendingAlice3 := rfl
  have h := C6_cancel_active_request dbCancel "alice" 1 pendingAlice3 hr
    (Or.inl rfl)
  have hpos : pendingAlice3.creditsCharged > 0 := by norm_num [pendingAlice3]
  exact ⟨h.1, (h.2.2.1 hpos).1, h.2.1⟩

/-- C7: a request whose current status is `completed` or `failed` cannot
be cancelled — the call returns `invalidState` and the store is
unchanged (no status update, no ledger entry); consequently cancelling
the same request twice succeeds at most once: after a successful cancel
the row is `failed`, so the second call returns `invalidState` and
changes nothing, and no double refund occurs. -/
theorem C7_cancel_terminal_rejected_idempotent
    (db : DB) (uid : String) (requestId : Nat) (r : GenerationRequest)
    (hr : (db.requests.filter
        (fun q => q.id == requestId && q.userId == uid)).head? = some r) :
    ((r.status = RequestStatus.completed ∨ r.status = RequestStatus.failed) →
      cancelGenerationRequest db uid requestId =
        (CancelResult.invalidState r.status, db))
    ∧ ((r.status = RequestStatus.pending ∨ r.status = RequestStatus.processing) →
        cancelGenerationRequest (cancelGenerationRequest db uid requestId).2
            uid requestId =
          (CancelResult.invalidState RequestStatus.failed,
            (cancelGenerationRequest db uid requestId).2)) := by
  constructor
  · intro hterm
    exact cancelGenerationRequest_terminal db uid requestId r hr hterm
  · intro hs
    have hs' : ¬ (r.status = RequestStatus.completed ∨
        r.status = RequestStatus.failed) := by
      rcases hs with h | h <;> simp [h]
    have hmem : r ∈ db.requests.filter
        (fun q => q.id == requestId && q.userId == uid) :=
      mem_of_head?_eq_some hr
    have hrid := List.of_mem_filter hmem
    simp only [Bool.and_eq_true, beq_iff_eq] at hrid
    have hreqs : (cancelGenerationRequest db uid requestId).2.requests =
        db.requests.map (cancelUpdateRow db.now requestId) := by
      by_cases hpos : r.creditsCharged > 0
      · rw [cancelGenerationRequest_refund db uid requestId r hr hs' hpos]
      · rw [cancelGenerationRequest_noRefund db uid requestId r hr hs' hpos]
    have hpres : ∀ x : GenerationRequest,
        ((cancelUpdateRow db.now requestId x).id == requestId &&
          (cancelUpdateRow db.now requestId x).userId == uid) =
        (x.id == requestId && x.userId == uid) := by
      intro x
      rw [cancelUpdateRow_id, cancelUpdateRow_userId]
    have hfr : ((cancelGenerationRequest db uid requestId).2.requests.filter
        (fun q => q.id == requestId && q.userId == uid)).head? =
        some (cancelUpdateRow db.now requestId r) := by
      rw [hreqs, head?_filter_map_idPres _ _ hpres, hr]
      rfl
    have hfailed : (cancelUpdateRow db.now requestId r).status =
        RequestStatus.failed := by
      unfold cancelUpdateRow
      rw [if_pos (by simp [hrid.1])]
    have h2 := cancelGenerationRequest_terminal _ uid requestId _ hfr
      (Or.inr hfailed)
    rw [hfailed] at h2
    exact h2

/-- C7 witness: cancelling bob's completed request is rejected with
`invalidState completed` and leaves the store unchanged; cancelling
alice's pending request and then cancelling it again gets
`invalidState failed` the second time with no further change. -/
theorem C7_witness_double_cancel :
    cancelGenerationRequest dbDone "bob" 2 =
      (CancelResult.invalidState RequestStatus.completed, dbDone)
    ∧ cancelGenerationRequest (cancelGenerationRequest dbCancel "alice" 1).2
        "alice" 1 =
      (CancelResult.invalidState RequestStatus.failed,
        (cancelGenerationRequest dbCancel "alice" 1).2) := by
  constructor
  · exact (C7_cancel_terminal_rejected_idempotent dbDone "bob" 2 doneBob
      rfl).1 (Or.inl rfl)
  · exact (C7_cancel_terminal_rejected_idempotent dbCancel "alice" 1
      pendingAlice3 rfl).2 (Or.inl rfl)

/-- C4: both operations that append ledger entries — the submit debit and
the cancel refund — only ever append (`∃ t, credits' = credits ++ t`:
existing entries are never updated or deleted) and preserve the per-user
chain invariant `balanceAfter(n) = balanceAfter(n-1) + amount(n)` (first
entry: `balanceAfter = amount`); and under these invariants
`currentBalance` equals the sum of the user's ledger amounts and equals
the `balanceAfter` of the user's latest entry. -/
theorem C4_ledger_chain_preserved
    (db : DB) (uid u : String) (d : SubmitData) (requestId : Nat)
    (hwf : WFledger db) (hinv : ChainInv db) :
    (WFledger (createGenerationRequest db uid d).2
      ∧ ChainInv (createGenerationRequest db uid d).2
      ∧ ∃ t, (createGenerationRequest db uid d).2.credits = db.credits ++ t)
    ∧ (WFledger (cancelGenerationRequest db uid requestId).2
      ∧ ChainInv (cancelGenerationRequest db uid requestId).2
      ∧ ∃ t, (cancelGenerationRequest db uid requestId).2.credits = db.credits ++ t)
    ∧ currentBalance db u = ((userEntries db u).map (fun e => e.amount)).sum
    ∧ (∀ e, (userEntries db u).getLast? = some e →
        currentBalance db u = e.balanceAfter) := by
  refine ⟨?_, ?_, ?_, ?_⟩
  · -- submit
    by_cases hv : generationRequestSchemaValid d = true
    · cases hm : findActiveModel db d.model_id with
      | none =>
        rw [createGenerationRequest_invalidModel db uid d hv hm]
        exact ⟨hwf, hinv, [], by simp⟩
      | some m =>
        by_cases hlt : currentBalance db uid <
            requiredCreditsOf d.num_outputs m.costPerRequest
        · rw [createGenerationRequest_denied db uid d m hv hm hlt]
          exact ⟨hwf, hinv, [], by simp⟩
        · rw [createGenerationRequest_granted db uid d m hv hm hlt]
          have hpres := append_entry_preserves db
            { db with
                requests := db.requests ++
                  [newRequestRow db uid d
                    (requiredCreditsOf d.num_outputs m.costPerRequest)]
                credits := db.credits ++
                  [newDebitRow db uid
                    (requiredCreditsOf d.num_outputs m.costPerRequest)
                    (currentBalance db uid) db.nextId]
                nextId := db.nextId + 2
                now := db.now + 1 }
            (newDebitRow db uid
              (requiredCreditsOf d.num_outputs m.costPerRequest)
              (currentBalance db uid) db.nextId)
            hwf hinv rfl
            (by
              show currentBalance db uid -
                  requiredCreditsOf d.num_outputs m.costPerRequest =
                currentBalance db uid +
                  -requiredCreditsOf d.num_outputs m.costPerRequest
              ring)
            rfl (Nat.lt_succ_self _)
          exact ⟨hpres.1, hpres.2, _, rfl⟩
    · rw [createGenerationRequest_invalidParams db uid d
        (Bool.not_eq_true _ ▸ hv)]
      exact ⟨hwf, hinv, [], by simp⟩
  · -- cancel
    cases hr : (db.requests.filter
        (fun q => q.id == requestId && q.userId == uid)).head? with
    | none =>
      rw [cancelGenerationRequest_notFound db uid requestId hr]
      exact ⟨hwf, hinv, [], by simp⟩
    | some r =>
      by_cases hterm : r.status = RequestStatus.completed ∨
          r.status = RequestStatus.failed
      · rw [cancelGenerationRequest_terminal db uid requestId r hr hterm]
        exact ⟨hwf, hinv, [], by simp⟩
      · by_cases hpos : r.creditsCharged > 0
        · rw [cancelGenerationRequest_refund db uid requestId r hr hterm hpos]
          have hpres := append_entry_preserves db
            { db with
                requests := db.requests.map (cancelUpdateRow db.now requestId)
                credits := db.credits ++
                  [newRefundRow db uid r.creditsCharged
                    (currentBalance db uid) r.id]
                nextId := db.nextId + 1
                now := db.now + 1 }
            (newRefundRow db uid r.creditsCharged (currentBalance db uid) r.id)
            hwf hinv rfl rfl rfl (Nat.lt_succ_self _)
          exact ⟨hpres.1, hpres.2, _, rfl⟩
        · rw [cancelGenerationRequest_noRefund db uid requestId r hr hterm hpos]
          refine ⟨⟨hwf.1, ?_⟩, hinv, [], by simp⟩
          intro e he
          exact Nat.lt_succ_of_lt (hwf.2 e he)
  · -- balance = sum of amounts
    rw [currentBalance_eq_lastBal db u hwf.1,
      lastBal_eq_add_sum 0 (userEntries db u) (hinv u)]
    ring
  · -- balance = latest entry's balanceAfter
    intro e he
    rw [currentBalance_eq_lastBal db u hwf.1]
    exact lastBal_getLast? _ 0 e he

/-- C4 witness: from a well-formed store (alice's pending request, empty
ledger), the cancel — which appends the refund entry — only appends to
the ledger. -/
theorem C4_witness_cancel_appends :
    ∃ t, (cancelGenerationRequest dbCancel "alice" 1).2.credits =
      dbCancel.credits ++ t :=
  (C4_ledger_chain_preserved dbCancel "alice" "alice" bodyOutputs2 1
    ⟨List.Pairwise.nil, by intro e he; simp [dbCancel] at he⟩
    (fun u => rfl)).2.1.2.2

/-- C2 (code evidence): the two submit writes are two separate awaited
`create` calls, not a `prisma.$transaction`, so they are not one atomic
unit. In the failure-free execution the handler does write exactly the
pending request row (charged 4) and its consumption entry
(`amount = -4`, `balanceAfter = 5 - 4`); but in the execution where the
ledger write rejects after the request write committed, the store keeps
the charged request, the ledger is unchanged — the debit is missing —
and the handler answers 500 without rolling anything back. -/
theorem C2_submit_writes_not_atomic :
    ((createGenerationRequest dbRich "alice" bodyOutputs2).2.requests =
        dbRich.requests ++ [newRequestRow dbRich "alice" bodyOutputs2 4]
      ∧ (createGenerationRequest dbRich "alice" bodyOutputs2).2.credits =
        dbRich.credits ++ [newDebitRow dbRich "alice" 4 5 dbRich.nextId])
    ∧ ((createGenerationRequestLedgerWriteFails dbRich "alice" bodyOutputs2).1 =
        none
      ∧ (createGenerationRequestLedgerWriteFails dbRich "alice"
          bodyOutputs2).2.requests =
        dbRich.requests ++ [newRequestRow dbRich "alice" bodyOutputs2 4]
      ∧ (newRequestRow dbRich "alice" bodyOutputs2 (4 : ℚ)).creditsCharged = 4
      ∧ (newRequestRow dbRich "alice" bodyOutputs2 (4 : ℚ)).status =
          RequestStatus.pending
      ∧ (createGenerationRequestLedgerWriteFails dbRich "alice"
          bodyOutputs2).2.credits = dbRich.credits) := by
  have hv : generationRequestSchemaValid bodyOutputs2 = true := rfl
  have hm : findActiveModel dbRich bodyOutputs2.model_id = some modelCost2 := rfl
  have hreq : requiredCreditsOf bodyOutputs2.num_outputs modelCost2.costPerRequest = 4 := by
    norm_num [requiredCreditsOf, bodyOutputs2, modelCost2]
  have hbal : currentBalance dbRich "alice" = 5 := rfl
  have hge : ¬ currentBalance dbRich "alice" <
      requiredCreditsOf bodyOutputs2.num_outputs modelCost2.costPerRequest := by
    rw [hreq, hbal]; norm_num
  have hg := createGenerationRequest_granted dbRich "alice" bodyOutputs2
    modelCost2 hv hm hge
  have hf := createGenerationRequestLedgerWriteFails_granted dbRich "alice"
    bodyOutputs2 modelCost2 hv hm hge
  rw [hreq, hbal] at hg
  rw [hreq] at hf
  exact ⟨⟨by rw [hg], by rw [hg]⟩, by rw [hf], by rw [hf], rfl, rfl, by rw [hf]⟩

/-- C9 (code evidence): with dana's balance exactly one request's cost
(4), the interleaving in which both concurrent submits read the balance
before either writes makes *both* succeed (two accepted requests, ids 10
and 12), each appending a debit of 4 computed from the same stale
balance: the ledger then sums to −4 for dana — a double spend the claim
says the atomic balance-check-then-debit rules out. -/
theorem C9_double_submit_both_succeed :
    (doubleSubmitSameStaleRead dbRace "dana" bodyRace).1 =
      (SubmitResult.accepted 10, SubmitResult.accepted 12)
    ∧ currentBalance dbRace "dana" = 4
    ∧ requiredCreditsOf bodyRace.num_outputs modelCost4.costPerRequest = 4
    ∧ ((userEntries (doubleSubmitSameStaleRead dbRace "dana" bodyRace).2
        "dana").map (fun e => e.amount)).sum = -4 := by
  have hv : generationRequestSchemaValid bodyRace = true := rfl
  have hm : findActiveModel dbRace bodyRace.model_id = some modelCost4 := rfl
  have hreq : requiredCreditsOf bodyRace.num_outputs modelCost4.costPerRequest = 4 := by
    norm_num [requiredCreditsOf, bodyRace, modelCost4]
  have hbal : currentBalance dbRace "dana" = 4 := rfl
  have hge : ¬ currentBalance dbRace "dana" <
      requiredCreditsOf bodyRace.num_outputs modelCost4.costPerRequest := by
    rw [hreq, hbal]; norm_num
  have hg := doubleSubmitSameStaleRead_granted dbRace "dana" bodyRace
    modelCost4 hv hm hge
  refine ⟨by rw [hg]; rfl, hbal, hreq, ?_⟩
  rw [hg, hreq, hbal]
  norm_num [userEntries, dbRace, newDebitRow, newRequestRow, purchase4dana,
    List.filter_append]

/-- C3 counterexample: tina's ledger holds two entries tied on
`transactionTime` (ids 1 and 2, `balanceAfter` 10 and 20). The code's
query orders by `transactionTime` alone — modelled stable over row
order, it yields the earlier row, balance 10 — while the claimed
ordering "ties broken by entry identifier" yields the id-2 entry,
balance 20: the claim fails on this store. -/
theorem C3_counterexample_tied_timestamps :
    currentBalance dbTie "tina" = 10
    ∧ specCurrentBalance dbTie "tina" = 20
    ∧ currentBalance dbTie "tina" ≠ specCurrentBalance dbTie "tina" := by
  have h1 : currentBalance dbTie "tina" = 10 := rfl
  have h2 : specCurrentBalance dbTie "tina" = 20 := rfl
  refine ⟨h1, h2, ?_⟩
  rw [h1, h2]
  norm_num

/-- C3 (amended): `currentBalance` is total and returns 0 when the user
has no ledger entries (unknown users included); otherwise it returns the
`balanceAfter` of one of the user's entries whose `transactionTime` is
maximal — on ties the store's row order decides, not the entry
identifier. -/
theorem C3_balance_latest_by_time (db : DB) (uid : String) :
    (userEntries db uid = [] → currentBalance db uid = 0)
    ∧ (userEntries db uid ≠ [] →
        ∃ e, e ∈ userEntries db uid
          ∧ e.userId = uid
          ∧ (∀ x ∈ userEntries db uid, x.transactionTime ≤ e.transactionTime)
          ∧ currentBalance db uid = e.balanceAfter) := by
  constructor
  · intro h
    unfold currentBalance latestCredit
    rw [h]
    rfl
  · intro h
    obtain ⟨e, he⟩ := Option.isSome_iff_exists.mp
      (foldl_pickLater_ne_none (userEntries db uid) h)
    have hmem : e ∈ userEntries db uid := by
      rcases foldl_pickLater_mem (userEntries db uid) none e he with h' | h'
      · exact absurd h' (by simp)
      · exact h'
    have huid : e.userId = uid := by
      have := List.of_mem_filter hmem
      simpa using this
    refine ⟨e, hmem, huid,
      (foldl_pickLater_maxTime (userEntries db uid) none e he).2, ?_⟩
    unfold currentBalance latestCredit
    rw [he]

/-- C3 witness: on tina's tied ledger the resolver indeed returns the
`balanceAfter` of an entry with maximal transaction time. -/
theorem C3_witness_tied_ledger :
    ∃ e, e ∈ userEntries dbTie "tina"
      ∧ e.userId = "tina"
      ∧ (∀ x ∈ userEntries dbTie "tina", x.transactionTime ≤ e.transactionTime)
      ∧ currentBalance dbTie "tina" = e.balanceAfter :=
  (C3_balance_latest_by_time dbTie "tina").2
    (fun hc => List.cons_ne_nil tieEntry1 [tieEntry2]
      ((rfl : userEntries dbTie "tina" = [tieEntry1, tieEntry2]).symm.trans hc))
